import Mathlib

/-
  Verification of the sequencer core of `grid-toggle.py` (monome grid studies).

  The embedding models the `GridStudies` class: its constructor state, the
  `play` tick body, the `on_grid_key` handler and the `draw` renderer, over a
  shallow model of Python list indexing (negative indices wrap within
  `[-len, len)`; anything else raises IndexError, modelled as `Option.none`).
-/

namespace GridToggle

/-- Python list index resolution for a list of length `n`: index `i` resolves
to `i` when `0 ≤ i < n`, to `n + i` when `-n ≤ i < 0`, and raises (none)
otherwise. -/
def pyIndex (n : Nat) (i : Int) : Option Nat :=
  if 0 ≤ i ∧ i < (n : Int) then some i.toNat
  else if -(n : Int) ≤ i ∧ i < 0 then some (i + (n : Int)).toNat
  else none

/-- Python list read `l[i]` with wrap-around for negative indices. -/
def pyGet (l : List α) (i : Int) : Option α :=
  match pyIndex l.length i with
  | none => none
  | some j => l[j]?

/-- Python in-place element update `l[i] = f l[i]` (where `f` itself may
fail, for nested updates). -/
def pyModify (l : List α) (i : Int) (f : α → Option α) : Option (List α) :=
  match pyIndex l.length i with
  | none => none
  | some j =>
    match l[j]? with
    | none => none
    | some a =>
      match f a with
      | none => none
      | some a2 => some (l.set j a2)

/-- Read a matrix cell by nonnegative coordinates (for stating theorems). -/
def cellAt (m : List (List Nat)) (y x : Nat) : Option Nat :=
  match m[y]? with
  | none => none
  | some row => row[x]?

/-- The LED buffer of `_GridBuffer.__init__`: `height` rows of `width`
zero levels. -/
structure GridBuffer where
  width : Nat
  height : Nat
  levels : List (List Nat)
deriving DecidableEq

/-- `_GridBuffer(width, height)`. -/
def GridBuffer.init (width height : Nat) : GridBuffer :=
  { width := width, height := height,
    levels := List.replicate height (List.replicate width 0) }

/-- Write cell `(y, x)` of a row-major matrix, leaving the matrix unchanged
when the row is missing. -/
def setCell (m : List (List Nat)) (y x v : Nat) : List (List Nat) :=
  match m[y]? with
  | none => m
  | some row => m.set y (row.set x v)

/-- `_GridBuffer.led_level_set`: guarded single-cell write. -/
def GridBuffer.led_level_set (b : GridBuffer) (x y : Int) (level : Nat) :
    GridBuffer :=
  if 0 ≤ x ∧ x < (b.width : Int) ∧ 0 ≤ y ∧ y < (b.height : Int) then
    { b with levels := setCell b.levels y.toNat x.toNat level }
  else b

/-- The mutable state of `GridStudies`. -/
structure GridState where
  width : Nat
  height : Nat
  sequencer_rows : Int
  step : List (List Nat)
  play_position : Int
  next_position : Int
  cutting : Bool
  loop_start : Int
  loop_end : Int
  keys_held : Int
  key_last : Int
deriving DecidableEq

/-- `GridStudies.__init__` with grid dimensions `width × height`. -/
def initState (width height : Nat) : GridState :=
  { width := width, height := height,
    sequencer_rows := (height : Int) - 2,
    step := List.replicate height (List.replicate width 0),
    play_position := -1, next_position := -1, cutting := false,
    loop_start := 0, loop_end := (width : Int) - 1,
    keys_held := 0, key_last := 0 }

/-- Observable request emitted by the transport-gesture branch of
`on_grid_key`: a cut or a loop-set. -/
inductive Request where
  | cut (target : Int)
  | setLoop (a b : Int)
deriving DecidableEq

/-- `GridStudies.on_grid_key(x, y, s)`, instrumented to also return the
cut / loop-set requests the transport branch performs.  A Python IndexError
is `none`. -/
def on_grid_key (st : GridState) (x y : Int) (s : Nat) :
    Option (GridState × List Request) :=
  if s = 1 ∧ y < st.sequencer_rows then
    match pyModify st.step y (fun row => pyModify row x (fun v => some (v.xor 1))) with
    | none => none
    | some step2 => some ({ st with step := step2 }, [])
  else if y = (st.height : Int) - 1 then
    let st1 := { st with keys_held := st.keys_held + (s : Int) * 2 - 1 }
    if s = 1 ∧ st1.keys_held = 1 then
      some ({ st1 with cutting := true, next_position := x, key_last := x },
            [Request.cut x])
    else if s = 1 ∧ st1.keys_held = 2 then
      some ({ st1 with loop_start := st1.key_last, loop_end := x },
            [Request.setLoop st1.key_last x])
    else some (st1, [])
  else some (st, [])

/-- The playhead update at the top of one iteration of `GridStudies.play`. -/
def advance (st : GridState) : GridState :=
  if st.cutting then { st with play_position := st.next_position }
  else if st.play_position = (st.width : Int) - 1 then
    { st with play_position := 0 }
  else if st.play_position = st.loop_end then
    { st with play_position := st.loop_start }
  else { st with play_position := st.play_position + 1 }

/-- The trigger loop of `GridStudies.play`: for each sequencer row `y` (in
ascending order), read `step[y][play_position]` and fire when it is 1. -/
def collectTriggers (st : GridState) : List Nat → Option (List Nat)
  | [] => some []
  | y :: ys =>
    match pyGet st.step (y : Int) with
    | none => none
    | some row =>
      match pyGet row st.play_position with
      | none => none
      | some v =>
        match collectTriggers st ys with
        | none => none
        | some rest => some (if v = 1 then y :: rest else rest)

/-- The rows triggered by one tick, after the playhead has advanced. -/
def tickTriggers (st : GridState) : Option (List Nat) :=
  collectTriggers st (List.range st.sequencer_rows.toNat)

/-- One iteration of the `GridStudies.play` loop: advance, trigger the rows
whose cell at the new position is set, then clear the one-shot cut flag.
Returns the new state and the list of triggered rows. -/
def tick (st : GridState) : Option (GridState × List Nat) :=
  match tickTriggers (advance st) with
  | none => none
  | some trigs => some ({ advance st with cutting := false }, trigs)

/-- Iterate `tick`, discarding the trigger lists. -/
def tickN : Nat → GridState → Option GridState
  | 0, st => some st
  | n + 1, st =>
    match tick st with
    | none => none
    | some (st1, _) => tickN n st1

/-- An external stimulus: a key event or one clock tick. -/
inductive Ev where
  | key (x y : Int) (s : Nat)
  | tick
deriving DecidableEq

/-- Run a sequence of stimuli through the engine. -/
def runEvents (st : GridState) : List Ev → Option GridState
  | [] => some st
  | Ev.key x y s :: rest =>
    match on_grid_key st x y s with
    | none => none
    | some (st1, _) => runEvents st1 rest
  | Ev.tick :: rest =>
    match tick st with
    | none => none
    | some (st1, _) => runEvents st1 rest

/-- Run a sequence of key events, concatenating the emitted requests. -/
def runKeys (st : GridState) : List (Int × Int × Nat) → Option (GridState × List Request)
  | [] => some (st, [])
  | (x, y, s) :: rest =>
    match on_grid_key st x y s with
    | none => none
    | some (st1, r1) =>
      match runKeys st1 rest with
      | none => none
      | some (st2, r2) => some (st2, r1 ++ r2)

/-- The loop body of `GridStudies.draw`: read `step[y][x]` and write
`step[y][x] * 11` into the buffer at `(x, y)`. -/
def drawCellWrite (st : GridState) (x : Nat) (acc2 : Option GridBuffer)
    (y : Nat) : Option GridBuffer :=
  match acc2 with
  | none => none
  | some b =>
    match pyGet st.step (y : Int) with
    | none => none
    | some row =>
      match pyGet row (x : Int) with
      | none => none
      | some v => some (b.led_level_set (x : Int) (y : Int) (v * 11))

/-- `GridStudies.draw`: build a fresh buffer and write `step[y][x] * 11`
into it for every `x < width` and every sequencer row `y`. -/
def draw (st : GridState) : Option GridBuffer :=
  (List.range st.width).foldl
    (fun acc x =>
      (List.range st.sequencer_rows.toNat).foldl (drawCellWrite st x) acc)
    (some (GridBuffer.init st.width st.height))

/-- The step matrix has `height` rows of `width` cells each. -/
def StepWF (st : GridState) : Prop :=
  st.step.length = st.height ∧ ∀ row ∈ st.step, row.length = st.width

example : (tick { initState 16 8 with play_position := 0 }).map
    (fun r => r.1.play_position) = some 1 := by decide

example : (on_grid_key (initState 16 8) 3 0 1).map
    (fun r => cellAt r.1.step 0 3) = some (some 1) := by decide

/-- A successful tick produces the advanced state with the cut flag
cleared. -/
lemma tick_some_elim {st st' : GridState} {trigs : List Nat}
    (h : tick st = some (st', trigs)) :
    st' = { advance st with cutting := false } ∧
    tickTriggers (advance st) = some trigs := by
  unfold tick at h
  cases htr : tickTriggers (advance st) with
  | none => rw [htr] at h; exact absurd h (by simp)
  | some t =>
    rw [htr] at h
    have h2 := Option.some.inj h
    have hfst := congrArg Prod.fst h2
    have hsnd := congrArg Prod.snd h2
    simp only [Prod.fst, Prod.snd] at hfst hsnd
    exact ⟨hfst.symm, congrArg some hsnd⟩

/-- First branch of the playhead update: a pending cut jumps. -/
lemma advance_cut {st : GridState} (h : st.cutting = true) :
    advance st = { st with play_position := st.next_position } := by
  unfold advance; rw [if_pos h]

/-- Second branch: at the right edge of the grid, wrap to 0. -/
lemma advance_edge {st : GridState} (h : st.cutting = false)
    (h1 : st.play_position = (st.width : Int) - 1) :
    advance st = { st with play_position := 0 } := by
  unfold advance
  rw [if_neg (by rw [h]; exact Bool.false_ne_true), if_pos h1]

/-- Third branch: at `loop_end` (not the edge), wrap to `loop_start`. -/
lemma advance_loop {st : GridState} (h : st.cutting = false)
    (h1 : st.play_position ≠ (st.width : Int) - 1)
    (h2 : st.play_position = st.loop_end) :
    advance st = { st with play_position := st.loop_start } := by
  unfold advance
  rw [if_neg (by rw [h]; exact Bool.false_ne_true), if_neg h1, if_pos h2]

/-- Fourth branch: otherwise step one column to the right. -/
lemma advance_next {st : GridState} (h : st.cutting = false)
    (h1 : st.play_position ≠ (st.width : Int) - 1)
    (h2 : st.play_position ≠ st.loop_end) :
    advance st = { st with play_position := st.play_position + 1 } := by
  unfold advance
  rw [if_neg (by rw [h]; exact Bool.false_ne_true), if_neg h1, if_neg h2]

/-- C1: one tick follows the priority order of `play`: a pending cut jumps
to `next_position` unconditionally and is consumed; otherwise the grid-edge
wrap to 0 takes precedence over the loop wrap; otherwise reaching
`loop_end` wraps to `loop_start`; otherwise the playhead moves one column
right.  After every tick the cut flag is false. -/
theorem C1_playhead_advance (st st' : GridState) (trigs : List Nat)
    (hp0 : 0 ≤ st.play_position) (hpw : st.play_position < (st.width : Int))
    (h : tick st = some (st', trigs)) :
    st'.cutting = false ∧
    (st.cutting = true → st'.play_position = st.next_position) ∧
    (st.cutting = false → st.play_position = (st.width : Int) - 1 →
      st'.play_position = 0) ∧
    (st.cutting = false → st.play_position ≠ (st.width : Int) - 1 →
      st.play_position = st.loop_end → st'.play_position = st.loop_start) ∧
    (st.cutting = false → st.play_position ≠ (st.width : Int) - 1 →
      st.play_position ≠ st.loop_end →
      st'.play_position = st.play_position + 1) := by
  obtain ⟨hst, -⟩ := tick_some_elim h
  subst hst
  refine ⟨rfl, ?_, ?_, ?_, ?_⟩
  · intro hc; rw [show (({ advance st with cutting := false } : GridState)).play_position
      = (advance st).play_position from rfl, advance_cut hc]
  · intro hc h1; rw [show (({ advance st with cutting := false } : GridState)).play_position
      = (advance st).play_position from rfl, advance_edge hc h1]
  · intro hc h1 h2; rw [show (({ advance st with cutting := false } : GridState)).play_position
      = (advance st).play_position from rfl, advance_loop hc h1 h2]
  · intro hc h1 h2; rw [show (({ advance st with cutting := false } : GridState)).play_position
      = (advance st).play_position from rfl, advance_next hc h1 h2]

/-- Witness for C1 at a concrete state: width 16, playhead at 0, no cut
pending; the tick moves the playhead to column 1. -/
theorem C1_playhead_advance_witness :
    0 ≤ ({ initState 16 8 with play_position := 0 } : GridState).play_position ∧
    ({ initState 16 8 with play_position := 1 } : GridState).play_position =
      ({ initState 16 8 with play_position := 0 } : GridState).play_position + 1 :=
  ⟨by decide,
    (C1_playhead_advance { initState 16 8 with play_position := 0 }
      { initState 16 8 with play_position := 1 } [] (by decide) (by decide)
      (by decide)).2.2.2.2 rfl (by decide) (by decide)⟩

/-- `pyIndex` on a nonnegative in-range index resolves without wrap. -/
lemma pyIndex_of_nonneg {n : Nat} {i : Int} (h0 : 0 ≤ i) (h1 : i < (n : Int)) :
    pyIndex n i = some i.toNat := by
  unfold pyIndex; rw [if_pos ⟨h0, h1⟩]

/-- Successful `pyModify` rewrites one element. -/
lemma pyModify_eq_some {l : List α} {i : Int} {f : α → Option α} {j : Nat}
    {a a2 : α} (hj : pyIndex l.length i = some j) (ha : l[j]? = some a)
    (hf : f a = some a2) : pyModify l i f = some (l.set j a2) := by
  simp only [pyModify, hj, ha, hf]

/-- Successful `pyGet` is a plain list read. -/
lemma pyGet_eq {l : List α} {i : Int} {j : Nat}
    (hj : pyIndex l.length i = some j) : pyGet l i = l[j]? := by
  simp only [pyGet, hj]

/-- A press on an in-range sequencer cell succeeds, XORs exactly that cell
with 1 and emits no transport request. -/
lemma on_grid_key_toggle {st : GridState} {x y : Int}
    (hwf : StepWF st) (hseq : st.sequencer_rows ≤ (st.height : Int))
    (hy0 : 0 ≤ y) (hy : y < st.sequencer_rows)
    (hx0 : 0 ≤ x) (hx : x < (st.width : Int)) :
    ∃ row v, st.step[y.toNat]? = some row ∧ row[x.toNat]? = some v ∧
      on_grid_key st x y 1 =
        some ({ st with
                step := st.step.set y.toNat (row.set x.toNat (v.xor 1)) },
              []) := by
  have hyh : y < (st.height : Int) := lt_of_lt_of_le hy hseq
  have hylen : y.toNat < st.step.length := by rw [hwf.1]; omega
  have hrow : st.step[y.toNat]? = some (st.step.get ⟨y.toNat, hylen⟩) :=
    List.getElem?_eq_getElem hylen
  have hrowmem : st.step.get ⟨y.toNat, hylen⟩ ∈ st.step := List.getElem?_mem hrow
  have hrowlen : (st.step.get ⟨y.toNat, hylen⟩).length = st.width :=
    hwf.2 _ hrowmem
  have hxlen : x.toNat < (st.step.get ⟨y.toNat, hylen⟩).length := by
    rw [hrowlen]; omega
  have hv : (st.step.get ⟨y.toNat, hylen⟩)[x.toNat]? =
      some ((st.step.get ⟨y.toNat, hylen⟩).get ⟨x.toNat, hxlen⟩) :=
    List.getElem?_eq_getElem hxlen
  have hinner : pyModify (st.step.get ⟨y.toNat, hylen⟩) x
      (fun v => some (v.xor 1)) =
      some ((st.step.get ⟨y.toNat, hylen⟩).set x.toNat
        (((st.step.get ⟨y.toNat, hylen⟩).get ⟨x.toNat, hxlen⟩).xor 1)) :=
    pyModify_eq_some (by rw [hrowlen]; exact pyIndex_of_nonneg hx0 hx) hv rfl
  have houter : pyModify st.step y
      (fun row => pyModify row x (fun v => some (v.xor 1))) =
      some (st.step.set y.toNat ((st.step.get ⟨y.toNat, hylen⟩).set x.toNat
        (((st.step.get ⟨y.toNat, hylen⟩).get ⟨x.toNat, hxlen⟩).xor 1))) :=
    pyModify_eq_some (by rw [hwf.1]; exact pyIndex_of_nonneg hy0 hyh) hrow hinner
  refine ⟨st.step.get ⟨y.toNat, hylen⟩,
    (st.step.get ⟨y.toNat, hylen⟩).get ⟨x.toNat, hxlen⟩, hrow, hv, ?_⟩
  unfold on_grid_key
  rw [if_pos ⟨rfl, hy⟩, houter]

/-- Reading back the cell just written into a row-major matrix. -/
lemma cellAt_set_eq {m : List (List Nat)} {yn xn : Nat} {row : List Nat}
    (v : Nat) (hrow : m[yn]? = some row) (hx : xn < row.length) :
    cellAt (m.set yn (row.set xn v)) yn xn = some v := by
  have hy : yn < m.length := by
    obtain ⟨h, -⟩ := List.getElem?_eq_some_iff.mp hrow
    exact h
  unfold cellAt
  rw [List.getElem?_set_self (by simpa using hy)]
  simp only []
  rw [List.getElem?_set_self hx]

/-- Writing one cell leaves every other cell of the matrix unchanged. -/
lemma cellAt_set_ne {m : List (List Nat)} {yn xn : Nat} {row : List Nat}
    {v : Nat} (hrow : m[yn]? = some row) (r c : Nat)
    (hne : ¬(r = yn ∧ c = xn)) :
    cellAt (m.set yn (row.set xn v)) r c = cellAt m r c := by
  by_cases hr : r = yn
  · subst hr
    have hc : c ≠ xn := fun h => hne ⟨rfl, h⟩
    have hy : r < m.length := by
      obtain ⟨h, -⟩ := List.getElem?_eq_some_iff.mp hrow
      exact h
    unfold cellAt
    rw [List.getElem?_set_self (by simpa using hy), hrow]
    simp only []
    rw [List.getElem?_set_ne (fun h => hc h.symm)]
  · unfold cellAt
    rw [List.getElem?_set_ne (fun h => hr h.symm)]

/-- C8: a press on an in-range sequencer cell flips exactly that cell;
every other cell of the step matrix and the whole playhead and gesture
state are untouched. -/
theorem C8_toggle_frame (st : GridState) (x y : Int)
    (hwf : StepWF st) (hseq : st.sequencer_rows ≤ (st.height : Int))
    (hy0 : 0 ≤ y) (hy : y < st.sequencer_rows)
    (hx0 : 0 ≤ x) (hx : x < (st.width : Int)) :
    ∃ st', on_grid_key st x y 1 = some (st', []) ∧
      (∃ v, cellAt st.step y.toNat x.toNat = some v ∧
        cellAt st'.step y.toNat x.toNat = some (v.xor 1)) ∧
      (∀ r c : Nat, ¬(r = y.toNat ∧ c = x.toNat) →
        cellAt st'.step r c = cellAt st.step r c) ∧
      st'.play_position = st.play_position ∧
      st'.next_position = st.next_position ∧
      st'.cutting = st.cutting ∧
      st'.loop_start = st.loop_start ∧
      st'.loop_end = st.loop_end ∧
      st'.keys_held = st.keys_held ∧
      st'.key_last = st.key_last ∧
      st'.width = st.width ∧ st'.height = st.height ∧
      st'.sequencer_rows = st.sequencer_rows := by
  obtain ⟨row, v, hrow, hv, hkey⟩ := on_grid_key_toggle hwf hseq hy0 hy hx0 hx
  have hxlen : x.toNat < row.length := by
    obtain ⟨h, -⟩ := List.getElem?_eq_some_iff.mp hv
    exact h
  refine ⟨_, hkey, ⟨v, ?_, ?_⟩, ?_, rfl, rfl, rfl, rfl, rfl, rfl, rfl, rfl,
    rfl, rfl⟩
  · unfold cellAt
    rw [hrow]
    exact hv
  · exact cellAt_set_eq _ hrow hxlen
  · intro r c hne
    exact cellAt_set_ne hrow r c hne

/-- Witness for C8: toggling cell (2, 5) on the initial 16×8 grid. -/
theorem C8_toggle_frame_witness :
    StepWF (initState 16 8) ∧
    (∃ st', on_grid_key (initState 16 8) 5 2 1 = some (st', []) ∧
      (∃ v, cellAt (initState 16 8).step 2 5 = some v ∧
        cellAt st'.step 2 5 = some (v.xor 1)) ∧
      (∀ r c : Nat, ¬(r = 2 ∧ c = 5) →
        cellAt st'.step r c = cellAt (initState 16 8).step r c) ∧
      st'.play_position = (initState 16 8).play_position ∧
      st'.next_position = (initState 16 8).next_position ∧
      st'.cutting = (initState 16 8).cutting ∧
      st'.loop_start = (initState 16 8).loop_start ∧
      st'.loop_end = (initState 16 8).loop_end ∧
      st'.keys_held = (initState 16 8).keys_held ∧
      st'.key_last = (initState 16 8).key_last ∧
      st'.width = (initState 16 8).width ∧
      st'.height = (initState 16 8).height ∧
      st'.sequencer_rows = (initState 16 8).sequencer_rows) :=
  ⟨⟨by decide, by decide⟩,
    C8_toggle_frame (initState 16 8) 5 2 ⟨by decide, by decide⟩ (by decide)
      (by decide) (by decide) (by decide) (by decide)⟩

/-- Toggling one cell preserves the shape of the step matrix. -/
lemma StepWF_set {st : GridState} (hwf : StepWF st) {yn xn : Nat}
    {row : List Nat} {v : Nat} (hrow : st.step[yn]? = some row) :
    StepWF { st with step := st.step.set yn (row.set xn v) } := by
  refine ⟨by simp [hwf.1], ?_⟩
  intro r hr
  rcases List.mem_or_eq_of_mem_set hr with hmem | heq
  · exact hwf.2 r hmem
  · subst heq
    simp [hwf.2 row (List.getElem?_mem hrow)]

/-- XOR-ing a step value with 1 twice is the identity. -/
lemma xor_one_xor_one (v : Nat) : (v.xor 1).xor 1 = v := by
  show v ^^^ 1 ^^^ 1 = v
  rw [Nat.xor_assoc, Nat.xor_self, Nat.xor_zero]

/-- Unfolding `runKeys` over the first event. -/
lemma runKeys_cons (st : GridState) (x y : Int) (s : Nat)
    (rest : List (Int × Int × Nat)) :
    runKeys st ((x, y, s) :: rest) =
      match on_grid_key st x y s with
      | none => none
      | some (st1, r1) =>
        match runKeys st1 rest with
        | none => none
        | some (st2, r2) => some (st2, r1 ++ r2) := rfl

/-- C5: running any sequence of in-range sequencer presses, the value read
back at a cell is its initial value XOR-ed by the parity of the presses
that hit exactly that cell; in particular two presses on the same cell
restore it. -/
theorem C5_toggle_parity (st : GridState) (ps : List (Int × Int))
    (hwf : StepWF st) (hseq : st.sequencer_rows ≤ (st.height : Int))
    (hin : ∀ p ∈ ps, 0 ≤ p.1 ∧ p.1 < (st.width : Int) ∧
      0 ≤ p.2 ∧ p.2 < st.sequencer_rows) :
    ∃ st', runKeys st (ps.map (fun p => (p.1, p.2, 1))) = some (st', []) ∧
      ∀ r c : Nat, cellAt st'.step r c =
        (cellAt st.step r c).map (fun v =>
          if Even (ps.count ((c : Int), (r : Int))) then v else v.xor 1) := by
  induction ps generalizing st with
  | nil =>
    refine ⟨st, rfl, ?_⟩
    intro r c
    simp
  | cons p rest ih =>
    obtain ⟨hx0, hx1, hy0, hy1⟩ := hin p (by simp)
    obtain ⟨row, v, hrow, hv, hkey⟩ := on_grid_key_toggle hwf hseq hy0 hy1 hx0 hx1
    have hxlen : p.1.toNat < row.length := by
      obtain ⟨h, -⟩ := List.getElem?_eq_some_iff.mp hv
      exact h
    set st1 : GridState := { st with step := st.step.set p.2.toNat (row.set p.1.toNat (v.xor 1)) } with hst1def
    have hwf1 : StepWF st1 := StepWF_set hwf hrow
    have hstep1 : st1.step = st.step.set p.2.toNat (row.set p.1.toNat (v.xor 1)) := rfl
    obtain ⟨st', hrun, hcells⟩ := ih st1 hwf1 hseq
      (fun q hq => hin q (List.mem_cons_of_mem p hq))
    refine ⟨st', ?_, ?_⟩
    · rw [List.map_cons, runKeys_cons, hkey]
      simp only []
      rw [hrun]
      simp only []
      rw [List.nil_append]
    · intro r c
      rw [hcells r c, hstep1]
      by_cases hmatch : r = p.2.toNat ∧ c = p.1.toNat
      · obtain ⟨hr2, hc2⟩ := hmatch
        subst hr2; subst hc2
        have hcell0 : cellAt st.step p.2.toNat p.1.toNat = some v := by
          unfold cellAt
          rw [hrow]
          exact hv
        have hpair : ((p.1.toNat : Int), (p.2.toNat : Int)) = p := by
          rw [Int.toNat_of_nonneg hx0, Int.toNat_of_nonneg hy0]
        rw [cellAt_set_eq (v.xor 1) hrow hxlen, hcell0, List.count_cons, hpair]
        simp only [beq_self_eq_true, if_true, Option.map_some']
        rcases Nat.even_or_odd (List.count p rest) with he | ho
        · have hno : ¬Even (List.count p rest + 1) := by
            rw [Nat.even_add_one]
            exact fun h => h he
          rw [if_pos he, if_neg hno]
        · have hne2 : ¬Even (List.count p rest) := by
            rw [Nat.even_iff]
            rw [Nat.odd_iff] at ho
            omega
          have hyes : Even (List.count p rest + 1) := by
            rw [Nat.even_add_one]
            exact hne2
          rw [if_neg hne2, if_pos hyes, xor_one_xor_one]
      · have hne : ((c : Int), (r : Int)) ≠ p := by
          intro h
          apply hmatch
          have h1 := congrArg Prod.fst h
          have h2 := congrArg Prod.snd h
          simp only [Prod.fst, Prod.snd] at h1 h2
          constructor
          · omega
          · omega
        rw [cellAt_set_ne hrow r c hmatch, List.count_cons]
        simp [hne.symm]

/-- Witness for C5: pressing cell (2, 5) twice on the fresh 16×8 grid
leaves every cell at its initial value. -/
theorem C5_toggle_parity_witness :
    StepWF (initState 16 8) ∧
    (∃ st', runKeys (initState 16 8)
        (([((5 : Int), (2 : Int)), (5, 2)]).map (fun p => (p.1, p.2, 1))) =
        some (st', []) ∧
      ∀ r c : Nat, cellAt st'.step r c =
        (cellAt (initState 16 8).step r c).map (fun v =>
          if Even (([((5 : Int), (2 : Int)), (5, 2)]).count
              ((c : Int), (r : Int))) then v
          else v.xor 1)) :=
  ⟨⟨by decide, by decide⟩,
    C5_toggle_parity (initState 16 8) [(5, 2), (5, 2)] ⟨by decide, by decide⟩
      (by decide) (by decide)⟩

/-- A transport-row press seen with no key held: a cut request. -/
lemma transport_press_cut (st : GridState) (x t : Int)
    (ht : t = (st.height : Int) - 1)
    (hs : st.sequencer_rows = (st.height : Int) - 2)
    (hk : st.keys_held = 0) :
    on_grid_key st x t 1 =
      some ({ st with
              keys_held := 1, cutting := true,
              next_position := x, key_last := x }, [Request.cut x]) := by
  subst ht
  unfold on_grid_key
  rw [if_neg (fun hc => by have h2 := hc.2; rw [hs] at h2; omega), if_pos rfl]
  simp only [hk]
  norm_num

/-- A transport-row press seen with one key already held: a loop-set
request from `key_last` to the new column. -/
lemma transport_press_loop (st : GridState) (x t : Int)
    (ht : t = (st.height : Int) - 1)
    (hs : st.sequencer_rows = (st.height : Int) - 2)
    (hk : st.keys_held = 1) :
    on_grid_key st x t 1 =
      some ({ st with
              keys_held := 2, loop_start := st.key_last,
              loop_end := x }, [Request.setLoop st.key_last x]) := by
  subst ht
  unfold on_grid_key
  rw [if_neg (fun hc => by have h2 := hc.2; rw [hs] at h2; omega), if_pos rfl]
  simp only [hk]
  norm_num

/-- A transport-row press with any other held-count: only the counter
moves. -/
lemma transport_press_other (st : GridState) (x t : Int)
    (ht : t = (st.height : Int) - 1)
    (hs : st.sequencer_rows = (st.height : Int) - 2)
    (hk0 : st.keys_held ≠ 0) (hk1 : st.keys_held ≠ 1) :
    on_grid_key st x t 1 =
      some ({ st with keys_held := st.keys_held + 1 }, []) := by
  subst ht
  unfold on_grid_key
  rw [if_neg (fun hc => by have h2 := hc.2; rw [hs] at h2; omega), if_pos rfl]
  have h1 : st.keys_held + ((1 : Nat) : Int) * 2 - 1 = st.keys_held + 1 := by
    omega
  rw [h1, if_neg (fun hc => by have h2 := hc.2; simp at h2; omega),
    if_neg (fun hc => by have h2 := hc.2; simp at h2; omega)]

/-- A transport-row release never emits a request: it only decrements the
held-key counter. -/
lemma transport_release (st : GridState) (z t : Int)
    (ht : t = (st.height : Int) - 1) :
    on_grid_key st z t 0 =
      some ({ st with keys_held := st.keys_held - 1 }, []) := by
  subst ht
  unfold on_grid_key
  rw [if_neg (fun hc => absurd hc.1 (by norm_num)), if_pos rfl]
  norm_num

/-- Transport-row tap events: a press then a release at each listed
column, in order. -/
def tapEvents (t : Int) (xs : List Int) : List (Int × Int × Nat) :=
  xs.foldr (fun c acc => (c, t, 1) :: (c, t, 0) :: acc) []

/-- Unfolding `tapEvents` over the first tap. -/
lemma tapEvents_cons (t c : Int) (xs : List Int) :
    tapEvents t (c :: xs) = (c, t, 1) :: (c, t, 0) :: tapEvents t xs := rfl

/-- A sequence of isolated transport-row taps, started with no key held,
emits exactly one cut per tap, in order, and no loop-set. -/
lemma taps_all_cuts (t : Int) (xs : List Int) :
    ∀ st : GridState, t = (st.height : Int) - 1 →
      st.sequencer_rows = (st.height : Int) - 2 → st.keys_held = 0 →
      ∃ st', runKeys st (tapEvents t xs) = some (st', xs.map Request.cut) ∧
        st'.keys_held = 0 ∧ st'.height = st.height ∧
        st'.sequencer_rows = st.sequencer_rows := by
  induction xs with
  | nil => exact fun st ht hs hk => ⟨st, rfl, hk, rfl, rfl⟩
  | cons c xs ih =>
    intro st ht hs hk
    obtain ⟨st', hrun, hk', hh', hsr'⟩ :=
      ih ⟨st.width, st.height, st.sequencer_rows, st.step, st.play_position,
        c, true, st.loop_start, st.loop_end, 0, c⟩ ht hs rfl
    refine ⟨st', ?_, hk', hh', hsr'⟩
    rw [tapEvents_cons, runKeys_cons, transport_press_cut st c t ht hs hk]
    simp only []
    rw [runKeys_cons, transport_release { st with keys_held := 1, cutting := true, next_position := c, key_last := c } c t ht]
    simp only [sub_self]
    rw [hrun]
    simp

/-- C2: transport-row gestures from the initial tracker state (no key
held): an isolated tap at `x` yields exactly one cut request to `x` and no
loop-set and returns the tracker to rest; repeated isolated taps yield one
cut each, in order; two overlapping presses at `x` then `y` yield the cut
for `x` followed by a loop-set storing `loop_start = x`, `loop_end = y`
verbatim (no reordering, even when `y < x`); transport-row releases never
emit a request. -/
theorem C2_transport_gestures (st : GridState) (x y : Int)
    (hs : st.sequencer_rows = (st.height : Int) - 2)
    (hk : st.keys_held = 0) :
    (∃ st2, runKeys st (tapEvents ((st.height : Int) - 1) [x]) =
      some (st2, [Request.cut x]) ∧ st2.keys_held = 0) ∧
    (∀ xs : List Int, ∃ st2,
      runKeys st (tapEvents ((st.height : Int) - 1) xs) =
        some (st2, xs.map Request.cut)) ∧
    (∃ st1 st2, on_grid_key st x ((st.height : Int) - 1) 1 =
        some (st1, [Request.cut x]) ∧
      on_grid_key st1 y ((st.height : Int) - 1) 1 =
        some (st2, [Request.setLoop x y]) ∧
      st2.loop_start = x ∧ st2.loop_end = y) ∧
    (∀ st0 : GridState, ∀ z : Int, ∃ st1,
      on_grid_key st0 z ((st0.height : Int) - 1) 0 = some (st1, [])) := by
  refine ⟨?_, ?_, ?_, ?_⟩
  · obtain ⟨st2, hrun, hk2, -, -⟩ := taps_all_cuts _ [x] st rfl hs hk
    exact ⟨st2, by simpa using hrun, hk2⟩
  · intro xs
    obtain ⟨st2, hrun, -, -, -⟩ := taps_all_cuts _ xs st rfl hs hk
    exact ⟨st2, hrun⟩
  · exact ⟨{ st with keys_held := 1, cutting := true, next_position := x, key_last := x }, _,
      transport_press_cut st x ((st.height : Int) - 1) rfl hs hk,
      transport_press_loop { st with keys_held := 1, cutting := true, next_position := x, key_last := x } y ((st.height : Int) - 1) rfl hs rfl,
      rfl, rfl⟩
  · intro st0 z
    exact ⟨_, transport_release st0 z _ rfl⟩

/-- Witness for C2 on the fresh 16×8 grid, with overlapping presses at
columns 9 then 2 (second column smaller than the first). -/
theorem C2_transport_gestures_witness :
    (initState 16 8).sequencer_rows = ((initState 16 8).height : Int) - 2 ∧
    (initState 16 8).keys_held = 0 ∧
    ((∃ st2, runKeys (initState 16 8)
        (tapEvents (((initState 16 8).height : Int) - 1) [9]) =
        some (st2, [Request.cut 9]) ∧ st2.keys_held = 0) ∧
      (∀ xs : List Int, ∃ st2,
        runKeys (initState 16 8)
          (tapEvents (((initState 16 8).height : Int) - 1) xs) =
          some (st2, xs.map Request.cut)) ∧
      (∃ st1 st2, on_grid_key (initState 16 8) 9
          (((initState 16 8).height : Int) - 1) 1 =
          some (st1, [Request.cut 9]) ∧
        on_grid_key st1 2 (((initState 16 8).height : Int) - 1) 1 =
          some (st2, [Request.setLoop 9 2]) ∧
        st2.loop_start = 9 ∧ st2.loop_end = 2) ∧
      (∀ st0 : GridState, ∀ z : Int, ∃ st1,
        on_grid_key st0 z ((st0.height : Int) - 1) 0 = some (st1, []))) :=
  ⟨by decide, by decide,
    C2_transport_gestures (initState 16 8) 9 2 (by decide) (by decide)⟩

/-- Unfolding `tickN` over the first tick. -/
lemma tickN_succ (n : Nat) (st : GridState) :
    tickN (n + 1) st =
      match tick st with
      | none => none
      | some (st1, _) => tickN n st1 := rfl

/-- On the all-zero 16×8 pattern no row triggers, wherever the playhead
is inside the grid. -/
lemma triggers_zero16 (q : Int) (h0 : 0 ≤ q) (h1 : q < 16) :
    tickTriggers { initState 16 8 with play_position := q } = some [] := by
  interval_cases q <;> decide

/-- On the fresh 16×8 pattern, `n` ticks from playhead `p` land on
`(p + n) mod 16`. -/
lemma tickN_cycle (n : Nat) : ∀ p : Int, 0 ≤ p → p < 16 →
    tickN n { initState 16 8 with play_position := p } =
      some { initState 16 8 with play_position := (p + (n : Int)) % 16 } := by
  induction n with
  | zero =>
    intro p h0 h1
    have he : (p + ((0 : Nat) : Int)) % 16 = p := by omega
    rw [he]
    rfl
  | succ n ih =>
    intro p h0 h1
    by_cases hp : p = 15
    · subst hp
      have htick : tick { initState 16 8 with play_position := (15 : Int) } =
          some ({ initState 16 8 with play_position := 0 }, []) := by decide
      rw [tickN_succ, htick]
      simp only []
      rw [ih 0 (by norm_num) (by norm_num)]
      have harith : ((0 : Int) + (n : Int)) % 16 =
          ((15 : Int) + (((n + 1) : Nat) : Int)) % 16 := by omega
      rw [harith]
    have hadv : advance { initState 16 8 with play_position := p } =
        { initState 16 8 with play_position := p + 1 } := by
      unfold advance
      split_ifs with hc h2 h3
      · exact absurd hc (by simp [initState])
      · exfalso
        simp [initState] at h2
        omega
      · exfalso
        simp [initState] at h3
        omega
      · rfl
    have htrig : tickTriggers { initState 16 8 with play_position := p + 1 } =
        some [] := triggers_zero16 (p + 1) (by omega) (by omega)
    have htick : tick { initState 16 8 with play_position := p } =
        some ({ initState 16 8 with play_position := p + 1 }, []) := by
      unfold tick
      rw [hadv, htrig]
      rfl
    rw [tickN_succ, htick]
    simp only []
    rw [ih (p + 1) (by omega) (by omega)]
    have harith : (p + 1 + (n : Int)) % 16 = (p + (((n + 1) : Nat) : Int)) % 16 := by
      omega
    rw [harith]

/-- C6: from the initial 16×8 state (playhead -1, no cut pending, loop
0..15), the first tick puts the playhead on column 0, and after the k-th
tick it sits on (k-1) mod 16: each group of 16 ticks cycles 0..15 and
wraps back to 0. -/
theorem C6_initial_cycle (k : Nat) (hk : 1 ≤ k) :
    (tickN 1 (initState 16 8)).map (fun st => st.play_position) = some 0 ∧
    (tickN k (initState 16 8)).map (fun st => st.play_position) =
      some (((k : Int) - 1) % 16) := by
  constructor
  · decide
  · obtain ⟨j, rfl⟩ : ∃ j, k = j + 1 := ⟨k - 1, by omega⟩
    have htick1 : tick (initState 16 8) =
        some ({ initState 16 8 with play_position := 0 }, []) := by decide
    rw [tickN_succ, htick1]
    simp only []
    rw [tickN_cycle j 0 (by norm_num) (by norm_num)]
    simp only [Option.map_some']
    congr 1
    show ((0 : Int) + (j : Int)) % 16 = ((((j + 1) : Nat) : Int) - 1) % 16
    omega

/-- Witness for C6 at k = 17 ticks. -/
theorem C6_initial_cycle_witness :
    1 ≤ 17 ∧
    ((tickN 1 (initState 16 8)).map (fun st => st.play_position) = some 0 ∧
      (tickN 17 (initState 16 8)).map (fun st => st.play_position) =
        some (((17 : Int) - 1) % 16)) :=
  ⟨by decide, C6_initial_cycle 17 (by decide)⟩

/-- C10: the transport-row key counter is not clamped at zero.  From the
initial tracker state, a spurious release drives `keys_held` to -1; the
next press only restores it to 0 and emits no request (the tap's cut is
swallowed); only the press after that reaches 1 and cuts again. -/
theorem C10_counter_not_clamped (st : GridState) (z0 z1 z2 : Int)
    (hs : st.sequencer_rows = (st.height : Int) - 2)
    (hk : st.keys_held = 0) :
    ∃ st1 st2 st3,
      on_grid_key st z0 ((st.height : Int) - 1) 0 = some (st1, []) ∧
      st1.keys_held = -1 ∧
      on_grid_key st1 z1 ((st.height : Int) - 1) 1 = some (st2, []) ∧
      st2.keys_held = 0 ∧
      on_grid_key st2 z2 ((st.height : Int) - 1) 1 =
        some (st3, [Request.cut z2]) ∧
      st3.keys_held = 1 := by
  refine ⟨{ st with keys_held := st.keys_held - 1 },
    { st with keys_held := st.keys_held - 1 + 1 },
    { st with keys_held := 1, cutting := true, next_position := z2, key_last := z2 },
    transport_release st z0 ((st.height : Int) - 1) rfl,
    ?_, ?_, ?_, ?_, rfl⟩
  · show st.keys_held - 1 = -1
    omega
  · exact transport_press_other { st with keys_held := st.keys_held - 1 } z1
      ((st.height : Int) - 1) rfl hs
      (by show st.keys_held - 1 ≠ 0; omega)
      (by show st.keys_held - 1 ≠ 1; omega)
  · show st.keys_held - 1 + 1 = 0
    omega
  · exact transport_press_cut { st with keys_held := st.keys_held - 1 + 1 } z2
      ((st.height : Int) - 1) rfl hs (by show st.keys_held - 1 + 1 = 0; omega)

/-- Witness for C10 on the fresh 16×8 grid: release at column 4, presses
at columns 5 then 6; only the second press cuts. -/
theorem C10_counter_not_clamped_witness :
    (initState 16 8).sequencer_rows = ((initState 16 8).height : Int) - 2 ∧
    (initState 16 8).keys_held = 0 ∧
    (∃ st1 st2 st3,
      on_grid_key (initState 16 8) 4 (((initState 16 8).height : Int) - 1) 0 =
        some (st1, []) ∧
      st1.keys_held = -1 ∧
      on_grid_key st1 5 (((initState 16 8).height : Int) - 1) 1 =
        some (st2, []) ∧
      st2.keys_held = 0 ∧
      on_grid_key st2 6 (((initState 16 8).height : Int) - 1) 1 =
        some (st3, [Request.cut 6]) ∧
      st3.keys_held = 1) :=
  ⟨by decide, by decide,
    C10_counter_not_clamped (initState 16 8) 4 5 6 (by decide) (by decide)⟩

/-- Read one LED level from a buffer. -/
def bufCell (b : GridBuffer) (y x : Nat) : Option Nat := cellAt b.levels y x

/-- The buffer really is `height` rows of `width` levels. -/
def BufWF (b : GridBuffer) : Prop :=
  b.levels.length = b.height ∧ ∀ row ∈ b.levels, row.length = b.width

/-- `pyIndex` at a natural-number index inside the list. -/
lemma pyIndex_natCast {len n : Nat} (h : n < len) :
    pyIndex len (n : Int) = some n := by
  unfold pyIndex
  rw [if_pos ⟨by exact_mod_cast Nat.zero_le n, by exact_mod_cast h⟩]
  simp

/-- The fresh buffer is well-formed. -/
lemma bufWF_init (w h : Nat) : BufWF (GridBuffer.init w h) := by
  constructor
  · simp [GridBuffer.init]
  · intro row hrow
    simp only [GridBuffer.init, List.mem_replicate] at hrow
    rw [hrow.2]
    simp [GridBuffer.init]

/-- Every in-range cell of the fresh buffer holds level 0. -/
lemma bufCell_init (w h r c : Nat) (hr : r < h) (hc : c < w) :
    bufCell (GridBuffer.init w h) r c = some 0 := by
  unfold bufCell cellAt GridBuffer.init
  simp [hr, hc]

/-- `led_level_set` writes exactly the guarded cell and keeps the buffer
well-formed. -/
lemma led_level_set_spec (b : GridBuffer) (hb : BufWF b) (x y : Int)
    (lv : Nat) :
    BufWF (b.led_level_set x y lv) ∧
    (b.led_level_set x y lv).width = b.width ∧
    (b.led_level_set x y lv).height = b.height ∧
    ∀ r c : Nat,
      bufCell (b.led_level_set x y lv) r c =
        if 0 ≤ x ∧ x < (b.width : Int) ∧ 0 ≤ y ∧ y < (b.height : Int) ∧
            r = y.toNat ∧ c = x.toNat then some lv
        else bufCell b r c := by
  unfold GridBuffer.led_level_set
  by_cases hg : 0 ≤ x ∧ x < (b.width : Int) ∧ 0 ≤ y ∧ y < (b.height : Int)
  · rw [if_pos hg]
    obtain ⟨hx0, hxw, hy0, hyh⟩ := hg
    have hylen : y.toNat < b.levels.length := by rw [hb.1]; omega
    have hrow : b.levels[y.toNat]? = some (b.levels.get ⟨y.toNat, hylen⟩) :=
      List.getElem?_eq_getElem hylen
    have hrowlen : (b.levels.get ⟨y.toNat, hylen⟩).length = b.width :=
      hb.2 _ (List.getElem?_mem hrow)
    have hxlen : x.toNat < (b.levels.get ⟨y.toNat, hylen⟩).length := by
      rw [hrowlen]; omega
    have hset : setCell b.levels y.toNat x.toNat lv =
        b.levels.set y.toNat ((b.levels.get ⟨y.toNat, hylen⟩).set x.toNat lv) := by
      unfold setCell
      rw [hrow]
    refine ⟨⟨?_, ?_⟩, rfl, rfl, ?_⟩
    · show (setCell b.levels y.toNat x.toNat lv).length = b.height
      rw [hset]
      simp [hb.1]
    · show ∀ row ∈ setCell b.levels y.toNat x.toNat lv, row.length = b.width
      rw [hset]
      intro row hr
      rcases List.mem_or_eq_of_mem_set hr with hmem | heq
      · exact hb.2 row hmem
      · rw [heq, List.length_set]
        exact hrowlen
    · intro r c
      show cellAt (setCell b.levels y.toNat x.toNat lv) r c = _
      rw [hset]
      by_cases hrc : r = y.toNat ∧ c = x.toNat
      · rw [if_pos ⟨hx0, hxw, hy0, hyh, hrc.1, hrc.2⟩, hrc.1, hrc.2]
        exact cellAt_set_eq lv hrow hxlen
      · rw [if_neg (fun hfull => hrc ⟨hfull.2.2.2.2.1, hfull.2.2.2.2.2⟩)]
        exact cellAt_set_ne hrow r c hrc
  · rw [if_neg hg]
    refine ⟨hb, rfl, rfl, ?_⟩
    intro r c
    rw [if_neg (fun hfull => hg ⟨hfull.1, hfull.2.1, hfull.2.2.1, hfull.2.2.2.1⟩)]

/-- The inner `draw` loop at column `x` writes `step[y][x] * 11` into the
buffer for every sequencer row `y < n` and touches nothing else. -/
lemma draw_inner (st : GridState) (hwf : StepWF st) (x : Nat)
    (hx : x < st.width) :
    ∀ n : Nat, n ≤ st.height → ∀ b : GridBuffer, BufWF b →
      b.width = st.width → b.height = st.height →
      ∃ b', (List.range n).foldl (drawCellWrite st x) (some b) = some b' ∧
        BufWF b' ∧ b'.width = st.width ∧ b'.height = st.height ∧
        ∀ r c : Nat,
          bufCell b' r c =
            if r < n ∧ c = x then (cellAt st.step r c).map (fun v => v * 11)
            else bufCell b r c := by
  intro n
  induction n with
  | zero =>
    intro hn b hb hbw hbh
    refine ⟨b, rfl, hb, hbw, hbh, fun r c => ?_⟩
    rw [if_neg (by omega)]
  | succ n ih =>
    intro hn b hb hbw hbh
    obtain ⟨b1, hfold, hb1, hw1, hh1, hcells1⟩ := ih (by omega) b hb hbw hbh
    have hylen : n < st.step.length := by rw [hwf.1]; omega
    have hrowg : pyGet st.step (n : Int) = some (st.step.get ⟨n, hylen⟩) :=
      (pyGet_eq (pyIndex_natCast hylen)).trans (List.getElem?_eq_getElem hylen)
    have hrowlen : (st.step.get ⟨n, hylen⟩).length = st.width :=
      hwf.2 _ (List.getElem?_mem (List.getElem?_eq_getElem hylen))
    have hxlen : x < (st.step.get ⟨n, hylen⟩).length := by rw [hrowlen]; omega
    have hvg : pyGet (st.step.get ⟨n, hylen⟩) (x : Int) =
        some ((st.step.get ⟨n, hylen⟩).get ⟨x, hxlen⟩) :=
      (pyGet_eq (pyIndex_natCast hxlen)).trans (List.getElem?_eq_getElem hxlen)
    have hstep : drawCellWrite st x (some b1) n =
        some (b1.led_level_set (x : Int) (n : Int)
          ((st.step.get ⟨n, hylen⟩).get ⟨x, hxlen⟩ * 11)) := by
      simp only [drawCellWrite, hrowg, hvg]
    obtain ⟨hb2, hw2, hh2, hcells2⟩ :=
      led_level_set_spec b1 hb1 (x : Int) (n : Int)
        ((st.step.get ⟨n, hylen⟩).get ⟨x, hxlen⟩ * 11)
    refine ⟨_, ?_, hb2, by rw [hw2, hw1], by rw [hh2, hh1], ?_⟩
    · rw [List.range_succ, List.foldl_append, hfold]
      simp only [List.foldl_cons, List.foldl_nil]
      exact hstep
    · intro r c
      rw [hcells2 r c]
      have hgx : (0 : Int) ≤ (x : Int) := Int.natCast_nonneg x
      have hgx2 : (x : Int) < (b1.width : Int) := by
        rw [hw1]; exact_mod_cast hx
      have hgy : (0 : Int) ≤ (n : Int) := Int.natCast_nonneg n
      have hgy2 : (n : Int) < (b1.height : Int) := by
        rw [hh1]; exact_mod_cast (by omega : n < st.height)
      by_cases hrc : r = n ∧ c = x
      · rw [if_pos ⟨hgx, hgx2, hgy, hgy2, by simp [hrc.1], by simp [hrc.2]⟩,
          if_pos ⟨by omega, hrc.2⟩]
        have hcell : cellAt st.step r c =
            some ((st.step.get ⟨n, hylen⟩).get ⟨x, hxlen⟩) := by
          rw [hrc.1, hrc.2]
          unfold cellAt
          rw [List.getElem?_eq_getElem hylen]
          exact List.getElem?_eq_getElem hxlen
        rw [hcell]
        rfl
      · rw [if_neg (fun hfull => hrc ⟨by simpa using hfull.2.2.2.2.1,
          by simpa using hfull.2.2.2.2.2⟩), hcells1 r c]
        by_cases hin : r < n ∧ c = x
        · rw [if_pos hin, if_pos ⟨by omega, hin.2⟩]
        · rw [if_neg hin]
          have hnot : ¬(r < n + 1 ∧ c = x) := by
            intro h2
            have hrn : ¬ r < n := fun hlt => hin ⟨hlt, h2.2⟩
            exact hrc ⟨by omega, h2.2⟩
          rw [if_neg hnot]

/-- The outer `draw` loop over the first `m` columns: every sequencer-row
cell in those columns carries `step[y][x] * 11`, everything else still has
the fresh buffer's level. -/
lemma draw_outer (st : GridState) (hwf : StepWF st)
    (hn : st.sequencer_rows.toNat ≤ st.height) :
    ∀ m : Nat, m ≤ st.width →
      ∃ b', (List.range m).foldl
          (fun acc x =>
            (List.range st.sequencer_rows.toNat).foldl (drawCellWrite st x) acc)
          (some (GridBuffer.init st.width st.height)) = some b' ∧
        BufWF b' ∧ b'.width = st.width ∧ b'.height = st.height ∧
        ∀ r c : Nat,
          bufCell b' r c =
            if r < st.sequencer_rows.toNat ∧ c < m then
              (cellAt st.step r c).map (fun v => v * 11)
            else bufCell (GridBuffer.init st.width st.height) r c := by
  intro m
  induction m with
  | zero =>
    intro hm
    refine ⟨_, rfl, bufWF_init _ _, rfl, rfl, fun r c => ?_⟩
    rw [if_neg (by omega)]
  | succ m ih =>
    intro hm
    obtain ⟨b1, hfold, hb1, hw1, hh1, hcells1⟩ := ih (by omega)
    obtain ⟨b2, hfold2, hb2, hw2, hh2, hcells2⟩ :=
      draw_inner st hwf m (by omega) st.sequencer_rows.toNat hn b1 hb1 hw1 hh1
    refine ⟨b2, ?_, hb2, hw2, hh2, ?_⟩
    · rw [List.range_succ, List.foldl_append, hfold]
      simp only [List.foldl_cons, List.foldl_nil]
      exact hfold2
    · intro r c
      rw [hcells2 r c]
      by_cases hA : r < st.sequencer_rows.toNat ∧ c = m
      · rw [if_pos hA, if_pos ⟨hA.1, by omega⟩]
      · rw [if_neg hA, hcells1 r c]
        by_cases hB : r < st.sequencer_rows.toNat ∧ c < m
        · rw [if_pos hB, if_pos ⟨hB.1, by omega⟩]
        · rw [if_neg hB]
          have hnot : ¬(r < st.sequencer_rows.toNat ∧ c < m + 1) := by
            intro h2
            have hcm : ¬ c < m := fun hlt => hB ⟨h2.1, hlt⟩
            exact hA ⟨h2.1, by omega⟩
          rw [if_neg hnot]

/-- C4: `draw` renders every in-range cell of a sequencer row as level 11
when the cell is on and 0 when it is off, and never writes rows at or
beyond `sequencer_rows` (they keep the fresh buffer's levels). -/
theorem C4_render_levels (st : GridState) (hwf : StepWF st)
    (hs : st.sequencer_rows = (st.height : Int) - 2)
    (hbin : ∀ row ∈ st.step, ∀ v ∈ row, v ≤ 1) :
    ∃ b, draw st = some b ∧ b.width = st.width ∧ b.height = st.height ∧
      (∀ r c : Nat, r < st.height → c < st.width →
        bufCell b r c =
          some (if (r : Int) < st.sequencer_rows ∧ cellAt st.step r c = some 1
                then 11 else 0)) ∧
      (∀ r c : Nat, ¬((r : Int) < st.sequencer_rows) →
        bufCell b r c = bufCell (GridBuffer.init st.width st.height) r c) := by
  have hn : st.sequencer_rows.toNat ≤ st.height := by omega
  obtain ⟨b, hfold, hb, hbw, hbh, hcells⟩ := draw_outer st hwf hn st.width le_rfl
  refine ⟨b, by unfold draw; exact hfold, hbw, hbh, ?_, ?_⟩
  · intro r c hr hc
    rw [hcells r c]
    by_cases hcond : (r : Int) < st.sequencer_rows
    · have hrn : r < st.sequencer_rows.toNat := by omega
      rw [if_pos ⟨hrn, hc⟩]
      have hrlen : r < st.step.length := by rw [hwf.1]; omega
      have hrowq : st.step[r]? = some (st.step.get ⟨r, hrlen⟩) :=
        List.getElem?_eq_getElem hrlen
      have hrowlen : (st.step.get ⟨r, hrlen⟩).length = st.width :=
        hwf.2 _ (List.getElem?_mem hrowq)
      have hclen : c < (st.step.get ⟨r, hrlen⟩).length := by
        rw [hrowlen]; omega
      have hcell : cellAt st.step r c =
          some ((st.step.get ⟨r, hrlen⟩).get ⟨c, hclen⟩) := by
        unfold cellAt
        rw [hrowq]
        exact List.getElem?_eq_getElem hclen
      have hv1 : (st.step.get ⟨r, hrlen⟩).get ⟨c, hclen⟩ ≤ 1 :=
        hbin _ (List.getElem?_mem hrowq) _ (List.get_mem _ _ _)
      rw [hcell]
      rcases Nat.le_one_iff_eq_zero_or_eq_one.mp hv1 with hv0 | hv1'
      · rw [hv0]
        simp [hcond]
      · rw [hv1']
        simp [hcond]
    · have hrn : ¬(r < st.sequencer_rows.toNat ∧ c < st.width) := by
        intro h2
        exact hcond (by omega)
      rw [if_neg hrn, bufCell_init _ _ _ _ hr hc,
        if_neg (fun h2 => hcond h2.1)]
  · intro r c hcond
    have hno : ¬(r < st.sequencer_rows.toNat ∧ c < st.width) := by
      intro h2
      exact hcond (by omega)
    rw [hcells r c, if_neg hno]

/-- The 16×8 state with only cell (2, 5) toggled on. -/
def c4WitnessState : GridState :=
  { initState 16 8 with
    step := (initState 16 8).step.set 2 ((List.replicate 16 0).set 5 1) }

/-- Witness for C4: rendering the pattern whose only on cell is (2, 5). -/
theorem C4_render_levels_witness :
    StepWF c4WitnessState ∧
    c4WitnessState.sequencer_rows = (c4WitnessState.height : Int) - 2 ∧
    (∀ row ∈ c4WitnessState.step, ∀ v ∈ row, v ≤ 1) ∧
    (∃ b, draw c4WitnessState = some b ∧ b.width = c4WitnessState.width ∧
      b.height = c4WitnessState.height ∧
      (∀ r c : Nat, r < c4WitnessState.height → c < c4WitnessState.width →
        bufCell b r c =
          some (if (r : Int) < c4WitnessState.sequencer_rows ∧
                cellAt c4WitnessState.step r c = some 1 then 11 else 0)) ∧
      (∀ r c : Nat, ¬((r : Int) < c4WitnessState.sequencer_rows) →
        bufCell b r c =
          bufCell (GridBuffer.init c4WitnessState.width c4WitnessState.height)
            r c)) :=
  ⟨⟨by decide, by decide⟩, by decide, by decide,
    C4_render_levels c4WitnessState ⟨by decide, by decide⟩ (by decide)
      (by decide)⟩

/-- Counterexample to C3: out-of-range key events are not all ignored.  A
press at row -1 (outside the declared grid) wraps Python-style and toggles
the step cell stored for the bottom (transport) row, mutating state, while
a press at column 16 on row 0 raises IndexError (modelled as `none`). -/
theorem C3_counterexample :
    (on_grid_key (initState 16 8) 0 (-1) 1).map
      (fun r => cellAt r.1.step 7 0) = some (some 1) ∧
    cellAt (initState 16 8).step 7 0 = some 0 ∧
    on_grid_key (initState 16 8) 16 0 1 = none := by decide

/-- C3 amended: the handler does not validate coordinates.  Events whose
row is at or beyond `total_rows` are ignored (state unchanged, nothing
raised, no request); but a press at row -1 toggles the wrapped bottom row,
and a sequencer-row press at column `width` raises IndexError. -/
theorem C3_out_of_range_amended (st : GridState) (x y : Int) (s : Nat)
    (hs : st.sequencer_rows = (st.height : Int) - 2)
    (hy : (st.height : Int) ≤ y) :
    on_grid_key st x y s = some (st, []) ∧
    (on_grid_key (initState 16 8) 0 (-1) 1).map
      (fun r => cellAt r.1.step 7 0) = some (some 1) ∧
    on_grid_key (initState 16 8) 16 0 1 = none := by
  refine ⟨?_, by decide, by decide⟩
  unfold on_grid_key
  split_ifs with h1 h2
  · exact absurd h1.2 (by rw [hs]; omega)
  · exact absurd h2 (by omega)
  · rfl

/-- Witness for the amended C3: a press at row 8 on the 16×8 grid is
ignored. -/
theorem C3_out_of_range_amended_witness :
    (initState 16 8).sequencer_rows = ((initState 16 8).height : Int) - 2 ∧
    ((initState 16 8).height : Int) ≤ 8 ∧
    (on_grid_key (initState 16 8) 3 8 1 = some (initState 16 8, []) ∧
      (on_grid_key (initState 16 8) 0 (-1) 1).map
        (fun r => cellAt r.1.step 7 0) = some (some 1) ∧
      on_grid_key (initState 16 8) 16 0 1 = none) :=
  ⟨by decide, by decide,
    C3_out_of_range_amended (initState 16 8) 3 8 1 (by decide) (by decide)⟩

/-- The value the trigger loop reads for row `y`:
`step[y][play_position]`. -/
def stepAt (st : GridState) (y : Nat) : Option Nat :=
  match pyGet st.step (y : Int) with
  | none => none
  | some row => pyGet row st.play_position

/-- A successful trigger collection is exactly the rows whose read cell
is 1, in order. -/
lemma collectTriggers_eq_filter (st : GridState) :
    ∀ ys : List Nat, ∀ l : List Nat, collectTriggers st ys = some l →
      l = ys.filter (fun y => stepAt st y = some 1) := by
  intro ys
  induction ys with
  | nil =>
    intro l hl
    have h2 := Option.some.inj hl
    rw [← h2]
    rfl
  | cons y ys ih =>
    intro l hl
    unfold collectTriggers at hl
    cases hg : pyGet st.step (y : Int) with
    | none => rw [hg] at hl; exact absurd hl (by simp)
    | some row =>
      rw [hg] at hl
      simp only [] at hl
      cases hv : pyGet row st.play_position with
      | none => rw [hv] at hl; exact absurd hl (by simp)
      | some v =>
        rw [hv] at hl
        simp only [] at hl
        cases hc : collectTriggers st ys with
        | none => rw [hc] at hl; exact absurd hl (by simp)
        | some rest =>
          rw [hc] at hl
          simp only [] at hl
          have hrest := ih rest hc
          have hl2 := Option.some.inj hl
          have hsa : stepAt st y = some v := by
            unfold stepAt
            rw [hg]
            exact hv
          rw [List.filter_cons, ← hl2, hrest]
          by_cases hv1 : v = 1
          · subst hv1
            simp [hsa]
          · simp [hsa, hv1]

/-- Counting occurrences in a successful trigger list: each sequencer row
appears once when its cell reads 1, and never otherwise. -/
lemma tickTriggers_count (S : GridState) (trigs : List Nat)
    (h : tickTriggers S = some trigs) (y : Nat) :
    trigs.count y =
      if (y : Int) < S.sequencer_rows ∧ stepAt S y = some 1 then 1 else 0 := by
  unfold tickTriggers at h
  have hfil := collectTriggers_eq_filter S _ _ h
  rw [hfil, List.count_eq_of_nodup ((List.nodup_range _).filter _)]
  by_cases hc : (y : Int) < S.sequencer_rows ∧ stepAt S y = some 1
  · have hmem : y ∈ (List.range S.sequencer_rows.toNat).filter
        (fun z => stepAt S z = some 1) :=
      List.mem_filter.mpr ⟨List.mem_range.mpr (by omega), by simp [hc.2]⟩
    rw [if_pos hmem, if_pos hc]
  · have hmem : y ∉ (List.range S.sequencer_rows.toNat).filter
        (fun z => stepAt S z = some 1) := by
      intro hm
      obtain ⟨hr, hp⟩ := List.mem_filter.mp hm
      have hr2 := List.mem_range.mp hr
      exact hc ⟨by omega, by simpa using hp⟩
    rw [if_neg hmem, if_neg hc]

/-- C9: each tick triggers exactly the sequencer rows whose cell at the
new play position is set, each exactly once. -/
theorem C9_trigger_once (st st' : GridState) (trigs : List Nat)
    (h : tick st = some (st', trigs)) (y : Nat) :
    trigs.count y =
      if (y : Int) < st'.sequencer_rows ∧ stepAt st' y = some 1 then 1
      else 0 := by
  obtain ⟨hst, htr⟩ := tick_some_elim h
  subst hst
  exact tickTriggers_count (advance st) trigs htr y

/-- The 16×8 state with cell (0, 3) on and the playhead at column 2. -/
def c9WitnessState : GridState :=
  { initState 16 8 with
    play_position := 2,
    step := (initState 16 8).step.set 0 ((List.replicate 16 0).set 3 1) }

/-- Witness for C9: from the state above, the tick lands on column 3 and
triggers row 0 exactly once. -/
theorem C9_trigger_once_witness :
    tick c9WitnessState =
      some ({ c9WitnessState with play_position := 3 }, [0]) ∧
    ([0] : List Nat).count 0 =
      (if ((0 : Nat) : Int) <
          ({ c9WitnessState with play_position := 3 } : GridState).sequencer_rows ∧
          stepAt { c9WitnessState with play_position := 3 } 0 = some 1 then 1
        else 0) :=
  ⟨by decide,
    C9_trigger_once c9WitnessState { c9WitnessState with play_position := 3 }
      [0] (by decide) 0⟩

/-- A key event whose coordinates lie inside a `w × h` grid. -/
def evInRange (w h : Nat) : Ev → Prop
  | Ev.key x y s =>
    0 ≤ x ∧ x < (w : Int) ∧ 0 ≤ y ∧ y < (h : Int) ∧ s ≤ 1
  | Ev.tick => True

instance (w h : Nat) (e : Ev) : Decidable (evInRange w h e) := by
  cases e with
  | key x y s => exact inferInstanceAs (Decidable (_ ∧ _))
  | tick => exact inferInstanceAs (Decidable True)

/-- The playhead-related state invariant: the playhead is -1 or inside the
grid, a pending cut targets an in-grid column, and the stored loop start
and gesture column are in-grid. -/
def PlayheadInv (st : GridState) : Prop :=
  (st.play_position = -1 ∨
    (0 ≤ st.play_position ∧ st.play_position < (st.width : Int))) ∧
  (st.cutting = true →
    0 ≤ st.next_position ∧ st.next_position < (st.width : Int)) ∧
  (0 ≤ st.loop_start ∧ st.loop_start < (st.width : Int)) ∧
  (0 ≤ st.key_last ∧ st.key_last < (st.width : Int))

/-- The initial state satisfies the invariant on a non-empty grid. -/
lemma PlayheadInv_init (w h : Nat) (hw : 1 ≤ w) :
    PlayheadInv (initState w h) := by
  refine ⟨Or.inl rfl, ?_, ⟨le_refl 0, ?_⟩, ⟨le_refl 0, ?_⟩⟩
  · intro hcut
    exact absurd hcut (by simp [initState])
  · show (0 : Int) < (w : Int)
    exact_mod_cast hw
  · show (0 : Int) < (w : Int)
    exact_mod_cast hw

/-- A key event with an in-grid column preserves the invariant and the
grid geometry. -/
lemma on_grid_key_inv {st st' : GridState} {x y : Int} {s : Nat}
    {reqs : List Request} (hx0 : 0 ≤ x) (hx1 : x < (st.width : Int))
    (hInv : PlayheadInv st) (h : on_grid_key st x y s = some (st', reqs)) :
    PlayheadInv st' ∧ st'.width = st.width ∧ st'.height = st.height ∧
      st'.sequencer_rows = st.sequencer_rows := by
  unfold on_grid_key at h
  simp only [] at h
  split_ifs at h with h1 h2 hcut hloop
  · cases hm : pyModify st.step y
        (fun row => pyModify row x (fun v => some (v.xor 1))) with
    | none => rw [hm] at h; exact absurd h (by simp)
    | some step2 =>
      rw [hm] at h
      simp only [] at h
      have h3 := Option.some.inj h
      have hfst := congrArg Prod.fst h3
      simp only [Prod.fst] at hfst
      rw [← hfst]
      exact ⟨hInv, rfl, rfl, rfl⟩
  · have h3 := Option.some.inj h
    have hfst := congrArg Prod.fst h3
    simp only [Prod.fst] at hfst
    rw [← hfst]
    exact ⟨⟨hInv.1, fun _ => ⟨hx0, hx1⟩, hInv.2.2.1, ⟨hx0, hx1⟩⟩,
      rfl, rfl, rfl⟩
  · have h3 := Option.some.inj h
    have hfst := congrArg Prod.fst h3
    simp only [Prod.fst] at hfst
    rw [← hfst]
    exact ⟨⟨hInv.1, hInv.2.1, hInv.2.2.2, hInv.2.2.2⟩, rfl, rfl, rfl⟩
  · have h3 := Option.some.inj h
    have hfst := congrArg Prod.fst h3
    simp only [Prod.fst] at hfst
    rw [← hfst]
    exact ⟨⟨hInv.1, hInv.2.1, hInv.2.2.1, hInv.2.2.2⟩, rfl, rfl, rfl⟩
  · have h3 := Option.some.inj h
    have hfst := congrArg Prod.fst h3
    simp only [Prod.fst] at hfst
    rw [← hfst]
    exact ⟨hInv, rfl, rfl, rfl⟩

/-- `advance` touches only the playhead position. -/
lemma advance_fields (st : GridState) :
    (advance st).width = st.width ∧ (advance st).height = st.height ∧
    (advance st).sequencer_rows = st.sequencer_rows ∧
    (advance st).loop_start = st.loop_start ∧
    (advance st).key_last = st.key_last := by
  unfold advance
  split_ifs <;> exact ⟨rfl, rfl, rfl, rfl, rfl⟩

/-- The playhead stays in the grid across one `advance`. -/
lemma advance_inv {st : GridState} (hw : 1 ≤ st.width)
    (hInv : PlayheadInv st) :
    0 ≤ (advance st).play_position ∧
      (advance st).play_position < (st.width : Int) := by
  have hwpos : (0 : Int) < (st.width : Int) := by exact_mod_cast hw
  unfold advance
  split_ifs with hcut hedge hloop
  · exact hInv.2.1 hcut
  · exact ⟨le_refl 0, hwpos⟩
  · exact hInv.2.2.1
  · show 0 ≤ st.play_position + 1 ∧ st.play_position + 1 < (st.width : Int)
    rcases hInv.1 with hm1 | ⟨hp0, hp1⟩
    · rw [hm1]
      exact ⟨by norm_num, hwpos⟩
    · have hne : st.play_position ≠ (st.width : Int) - 1 := hedge
      exact ⟨by omega, by omega⟩

/-- One tick preserves the invariant and the grid geometry on a non-empty
grid. -/
lemma tick_inv {st st' : GridState} {trigs : List Nat}
    (hw : 1 ≤ st.width) (hInv : PlayheadInv st)
    (h : tick st = some (st', trigs)) :
    PlayheadInv st' ∧ st'.width = st.width ∧ st'.height = st.height ∧
      st'.sequencer_rows = st.sequencer_rows := by
  obtain ⟨hst, -⟩ := tick_some_elim h
  subst hst
  obtain ⟨hfw, hfh, hfs, hfls, hfkl⟩ := advance_fields st
  refine ⟨⟨?_, ?_, ?_, ?_⟩, hfw, hfh, hfs⟩
  · refine Or.inr ?_
    show 0 ≤ (advance st).play_position ∧
      (advance st).play_position < ((advance st).width : Int)
    rw [hfw]
    exact advance_inv hw hInv
  · intro hcut
    exact absurd hcut (by simp)
  · show 0 ≤ (advance st).loop_start ∧
      (advance st).loop_start < ((advance st).width : Int)
    rw [hfls, hfw]
    exact hInv.2.2.1
  · show 0 ≤ (advance st).key_last ∧
      (advance st).key_last < ((advance st).width : Int)
    rw [hfkl, hfw]
    exact hInv.2.2.2

/-- Every run of in-range key events and ticks from an invariant state
ends in an invariant state with the same geometry. -/
lemma runEvents_inv (w h : Nat) (hw : 1 ≤ w) :
    ∀ evs : List Ev, ∀ st st' : GridState, st.width = w →
      PlayheadInv st → (∀ e ∈ evs, evInRange w h e) →
      runEvents st evs = some st' → PlayheadInv st' ∧ st'.width = w := by
  intro evs
  induction evs with
  | nil =>
    intro st st' hsw hInv hin hrun
    have h2 := Option.some.inj hrun
    rw [← h2]
    exact ⟨hInv, hsw⟩
  | cons e evs ih =>
    intro st st' hsw hInv hin hrun
    cases e with
    | key x y s =>
      obtain ⟨hx0, hx1, -, -, -⟩ := hin (Ev.key x y s) (by simp)
      unfold runEvents at hrun
      cases hk : on_grid_key st x y s with
      | none => rw [hk] at hrun; exact absurd hrun (by simp)
      | some p =>
        rw [hk] at hrun
        simp only [] at hrun
        obtain ⟨hInv1, hw1, -, -⟩ :=
          on_grid_key_inv hx0 (by rw [hsw]; exact hx1) hInv hk
        exact ih p.1 st' (by rw [hw1, hsw]) hInv1
          (fun e2 he2 => hin e2 (by simp [he2])) hrun
    | tick =>
      unfold runEvents at hrun
      cases hk : tick st with
      | none => rw [hk] at hrun; exact absurd hrun (by simp)
      | some p =>
        rw [hk] at hrun
        simp only [] at hrun
        obtain ⟨hInv1, hw1, -, -⟩ :=
          tick_inv (by rw [hsw]; exact hw) hInv hk
        exact ih p.1 st' (by rw [hw1, hsw]) hInv1
          (fun e2 he2 => hin e2 (by simp [he2])) hrun

/-- C7: over any interleaving of in-range key events and ticks from the
initial state of a non-empty grid, the playhead is always -1 (before the
first tick) or inside [0, width). -/
theorem C7_playhead_in_grid (w h : Nat) (hw : 1 ≤ w) (evs : List Ev)
    (hin : ∀ e ∈ evs, evInRange w h e) (st' : GridState)
    (hrun : runEvents (initState w h) evs = some st') :
    st'.play_position = -1 ∨
      (0 ≤ st'.play_position ∧ st'.play_position < (w : Int)) := by
  obtain ⟨hInv', hw'⟩ := runEvents_inv w h hw evs (initState w h) st' rfl
    (PlayheadInv_init w h hw) hin hrun
  rw [← hw']
  exact hInv'.1

/-- Witness for C7: a transport press at column 3 then one tick on the
16×8 grid; the playhead cuts to column 3. -/
theorem C7_playhead_in_grid_witness :
    1 ≤ 16 ∧
    (∀ e ∈ [Ev.key 3 7 1, Ev.tick], evInRange 16 8 e) ∧
    runEvents (initState 16 8) [Ev.key 3 7 1, Ev.tick] =
      some { initState 16 8 with
             play_position := 3, next_position := 3, keys_held := 1,
             key_last := 3 } ∧
    (({ initState 16 8 with
        play_position := 3, next_position := 3, keys_held := 1,
        key_last := 3 } : GridState).play_position = -1 ∨
      (0 ≤ ({ initState 16 8 with
              play_position := 3, next_position := 3, keys_held := 1,
              key_last := 3 } : GridState).play_position ∧
        ({ initState 16 8 with
           play_position := 3, next_position := 3, keys_held := 1,
           key_last := 3 } : GridState).play_position < ((16 : Nat) : Int))) :=
  ⟨by decide, by decide, by decide,
    C7_playhead_in_grid 16 8 (by decide) [Ev.key 3 7 1, Ev.tick] (by decide)
      _ (by decide)⟩

end GridToggle
